import Mathlib

/-!
# Vc scalar backend: `Vc::Scalar::Vector<T>`

A shallow embedding of `src/scalar/vector.h`, the one-lane backend of the Vc
library, and of the preprocessor lines of `src/sse/undomacros.h`, followed by
theorems about them.

Conventions of the embedding.

* A `Vector<T>` is the record of its only member `m_data`; the element type
  `EntryType` is a type parameter `α`, and the literal `0` of the source,
  converted to `EntryType`, is the literal `(0 : α)`.
* A raw pointer `EntryType *` is the buffer it points to, a `List α`; `p[i]`
  is defined exactly when `i` is inside the buffer.  An access outside the
  buffer is undefined behaviour in C++ and `none` here, so every function
  that dereferences a pointer returns an `Option`.
* A non-`const` member function returns the new value of `*this`; a `const`
  member function that writes through a pointer returns the new buffer.
  Arguments taken by value or by `const` reference are inputs only.  Arguments
  taken by non-`const` reference (`pack`) are returned together with `*this`.
* A default argument `Mask m = Mask(true)` is a second definition that passes
  `Mask(true)` explicitly.
-/

namespace Vc.Scalar

/-! ## Collaborators that are not part of `src/` -/

/-- Modelled from the spec: the width-1 `Mask` of `scalar/mask.h`, which is not
under `src/`.  The spec describes it as "one boolean predicate value, logical
lane width fixed at 1", constructed from a `bool`, with an accessor returning
the boolean (`data()` in `vector.h`) and implicit conversion to and from
`bool`. -/
structure Mask where
  data : Bool
deriving DecidableEq, Repr

/-- Modelled from the spec: the implicit conversion `bool -> Mask` used by
`m1 = true` in `pack`. -/
def Mask.ofBool (b : Bool) : Mask := ⟨b⟩

/-- Modelled from the spec: the implicit conversion `Mask -> bool` used by
`return m1` in `pack` and by `if (m)`. -/
def Mask.toBool (m : Mask) : Bool := m.data

/-! ## The class `Vector<T>` -/

/-- The class `Vector<T>` (vector.h:43-50): its state is `EntryType m_data`. -/
structure Vector (α : Type) where
  m_data : α
deriving DecidableEq, Repr

/-- Modelled from the spec: the proxy `WriteMaskedVector<T>` of
`scalar/writemaskedvector.h`, which is not under `src/`: "a non-owning
reference to exactly one `Vector<T>` being conditionally mutated, plus the
`Mask` gating the mutation".  The reference is represented by the current
value of the vector it refers to. -/
structure WriteMaskedVector (α : Type) where
  vec : Vector α
  mask : Mask
deriving DecidableEq, Repr

namespace Vector

variable {α β : Type}

/-- The accessor `EntryType data() const { return m_data; }` (vector.h:58). -/
def data (v : Vector α) : α := v.m_data

/-- The factory `Zero()` (vector.h:71): `r.m_data = 0`. -/
def Zero [OfNat α 0] : Vector α := ⟨0⟩

/-- The copy assignment `operator=(Vector v) { m_data = v.data(); return *this; }`
(vector.h:84); the result is the new `*this`. -/
def assignCopy (_self : Vector α) (v : Vector α) : Vector α := ⟨v.data⟩

/-- The const subscript `operator[](int index) const` (vector.h:200-203):
`assert(index == 0)` and then `return m_data`.  A failed assertion is `none`. -/
def subscript (v : Vector α) (index : Int) : Option α :=
  if index = 0 then some v.m_data else none

/-- The call operator `operator()(Mask m)` (vector.h:247):
`return WriteMaskedVector<T>(this, m)`. -/
def call (self : Vector α) (m : Mask) : WriteMaskedVector α := ⟨self, m⟩

/-- The member `assign(const Vector<T> &v, const Mask &m)` (vector.h:237-239):
`if (m.data()) m_data = v.m_data;`. -/
def assign (self : Vector α) (v : Vector α) (m : Mask) : Vector α :=
  if m.data then ⟨v.m_data⟩ else self

end Vector

/-- Modelled from the spec: the assignment through the proxy, `v1(m) = v2`.
The spec requires that an assignment performed through a `WriteMaskedVector`
"apply to the referenced vector's value only when the mask predicate is true;
when false, the operation is a no-op", and that it otherwise "behave exactly as
the corresponding unmasked `Vector<T>` operation", here the copy assignment.
The result is the new value of the referenced vector. -/
def WriteMaskedVector.assign {α : Type} (w : WriteMaskedVector α) (x : Vector α) :
    Vector α :=
  if w.mask.toBool then w.vec.assignCopy x else w.vec

/-- The objects a call `self.pack(m1, v2, m2)` can write, all passed by
non-`const` reference, together with the returned `bool`. -/
structure PackResult (α : Type) where
  ret : Bool
  self : Vector α
  m1 : Mask
  v2 : Vector α
  m2 : Mask
deriving DecidableEq, Repr

/-- The member `bool pack(Mask &m1, Vector<T> &v2, Mask &m2)` (vector.h:249-257). -/
def Vector.pack {α : Type} (self : Vector α) (m1 : Mask) (v2 : Vector α) (m2 : Mask) :
    PackResult α :=
  if !m1.data && m2.data then
    -- m_data = v2.m_data; m1 = true; m2 = false; return true;
    ⟨true, ⟨v2.m_data⟩, Mask.ofBool true, v2, Mask.ofBool false⟩
  else
    -- return m1;
    ⟨m1.toBool, self, m1, v2, m2⟩

/-! ## Raw memory -/

section Memory

variable {α : Type}

/-- The read `p[i]` through a raw pointer: the element at offset `i` of the
buffer, undefined outside it. -/
def readAt (p : List α) (i : Nat) : Option α := p[i]?

/-- The write `p[i] = x` through a raw pointer: the buffer with the element at
offset `i` replaced, undefined outside it. -/
def writeAt (p : List α) (i : Nat) (x : α) : Option (List α) :=
  if i < p.length then some (p.set i x) else none

end Memory

/-! ## Loads, stores, gathers and scatters -/

section LoadStore

variable {α β A : Type}

/-- The load constructor `explicit Vector(const EntryType *x) : m_data(x[0])`
(vector.h:94). -/
def Vector.ctorLoad (x : List α) : Option (Vector α) :=
  (readAt x 0).map Vector.mk

/-- The load constructor `template<typename A> Vector(const EntryType *x, A)
: m_data(x[0])` (vector.h:95).  The second argument has no name and is never
read; any type is accepted for it, a `Mask` included. -/
def Vector.ctorLoadA (x : List α) (_a : A) : Option (Vector α) :=
  (readAt x 0).map Vector.mk

/-- The converting load constructor `template<typename Other> explicit
Vector(const Other *x) : m_data(x[0])` (vector.h:96); `cast` is the implicit
conversion from `Other` to `EntryType`. -/
def Vector.ctorLoadOther (cast : β → α) (x : List β) : Option (Vector α) :=
  (readAt x 0).map fun y => Vector.mk (cast y)

/-- The converting load constructor with an unnamed second argument,
`template<typename Other, typename A> Vector(const Other *x, A) : m_data(x[0])`
(vector.h:97). -/
def Vector.ctorLoadOtherA (cast : β → α) (x : List β) (_a : A) : Option (Vector α) :=
  (readAt x 0).map fun y => Vector.mk (cast y)

/-- The member `void load(const EntryType *mem) { m_data = mem[0]; }`
(vector.h:118). -/
def Vector.load (_self : Vector α) (mem : List α) : Option (Vector α) :=
  (readAt mem 0).map Vector.mk

/-- The member `template<typename A> void load(const EntryType *mem, A)
{ m_data = mem[0]; }` (vector.h:119). -/
def Vector.loadA (_self : Vector α) (mem : List α) (_a : A) : Option (Vector α) :=
  (readAt mem 0).map Vector.mk

/-- The member `void load(const EntryType *mem, Mask m)
{ if (m.data()) m_data = mem[0]; }` (vector.h:120). -/
def Vector.loadMask (self : Vector α) (mem : List α) (m : Mask) : Option (Vector α) :=
  if m.data then (readAt mem 0).map Vector.mk else some self

/-- The converting member `template<typename Other> void load(const Other *mem)
{ m_data = mem[0]; }` (vector.h:114). -/
def Vector.loadOther (_self : Vector α) (cast : β → α) (mem : List β) :
    Option (Vector α) :=
  (readAt mem 0).map fun y => Vector.mk (cast y)

/-- The converting member `template<typename Other, typename A>
void load(const Other *mem, A) { m_data = mem[0]; }` (vector.h:115). -/
def Vector.loadOtherA (_self : Vector α) (cast : β → α) (mem : List β) (_a : A) :
    Option (Vector α) :=
  (readAt mem 0).map fun y => Vector.mk (cast y)

/-- The converting member `template<typename Other> void load(const Other *mem,
Mask m) { if (m.data()) m_data = mem[0]; }` (vector.h:116). -/
def Vector.loadOtherMask (self : Vector α) (cast : β → α) (mem : List β) (m : Mask) :
    Option (Vector α) :=
  if m.data then (readAt mem 0).map fun y => Vector.mk (cast y) else some self

/-- The member `void store(EntryType *mem) const { mem[0] = m_data; }`
(vector.h:124); the result is the buffer after the call. -/
def Vector.store (self : Vector α) (mem : List α) : Option (List α) :=
  writeAt mem 0 self.m_data

/-- The member `void store(EntryType *mem, Mask m) const
{ if (m.data()) mem[0] = m_data; }` (vector.h:125). -/
def Vector.storeMask (self : Vector α) (mem : List α) (m : Mask) : Option (List α) :=
  if m.data then writeAt mem 0 self.m_data else some mem

/-- The member `template<typename A> void store(EntryType *mem, A) const
{ store(mem); }` (vector.h:126). -/
def Vector.storeA (self : Vector α) (mem : List α) (_a : A) : Option (List α) :=
  self.store mem

/-- The member `template<typename A> void store(EntryType *mem, Mask m, A) const
{ store(mem, m); }` (vector.h:127). -/
def Vector.storeMaskA (self : Vector α) (mem : List α) (m : Mask) (_a : A) :
    Option (List α) :=
  self.storeMask mem m

end LoadStore

section GatherScatter

variable {α : Type}

/-- The gather constructor `template<typename IndexT> Vector(const EntryType
*array, const IndexT *indexes) : m_data(array[indexes[0]])` (vector.h:147); the
indexes are read through a raw pointer. -/
def Vector.ctorGatherPtr (array : List α) (indexes : List Nat) : Option (Vector α) :=
  (readAt indexes 0).bind fun i => (readAt array i).map Vector.mk

/-- The gather constructor `template<typename IndexT> Vector(const EntryType
*array, Vector<IndexT> indexes) : m_data(array[indexes[0]])` (vector.h:148). -/
def Vector.ctorGather (array : List α) (indexes : Vector Nat) : Option (Vector α) :=
  (indexes.subscript 0).bind fun i => (readAt array i).map Vector.mk

/-- The masked gather constructor `template<typename IndexT> Vector(const
EntryType *array, IndexT indexes, Mask m) : m_data(m.data() ?
array[indexes[0]] : 0)` (vector.h:149), with an index vector for `indexes`.
The conditional operator evaluates only the selected operand. -/
def Vector.ctorGatherMask [OfNat α 0] (array : List α) (indexes : Vector Nat) (m : Mask) :
    Option (Vector α) :=
  if m.data then (indexes.subscript 0).bind fun i => (readAt array i).map Vector.mk
  else some (Vector.mk 0)

/-- The member `template<typename IT> void gather(const EntryType *array,
IT indexes, Mask mask = Mask(true)) { if (mask.data()) m_data =
array[indexes[0]]; }` (vector.h:159-160), with the mask passed. -/
def Vector.gather (self : Vector α) (array : List α) (indexes : Vector Nat)
    (mask : Mask) : Option (Vector α) :=
  if mask.data then (indexes.subscript 0).bind fun i => (readAt array i).map Vector.mk
  else some self

/-- The member `gather(array, indexes)` with the mask omitted: the default
argument `Mask(true)` is passed. -/
def Vector.gatherDefault (self : Vector α) (array : List α) (indexes : Vector Nat) :
    Option (Vector α) :=
  self.gather array indexes (Mask.ofBool true)

/-- The member `void scatter(EntryType *array, const Vector<unsigned int>
&indexes, Mask m = Mask(true)) const { if (m.data()) array[indexes[0]] =
m_data; }` (vector.h:172, and vector.h:181 for `unsigned short` indexes), with
the mask passed; the result is the array after the call. -/
def Vector.scatter (self : Vector α) (array : List α) (indexes : Vector Nat)
    (m : Mask) : Option (List α) :=
  if m.data then (indexes.subscript 0).bind fun i => writeAt array i self.m_data
  else some array

/-- The member `scatter(array, indexes)` with the mask omitted: the default
argument `Mask(true)` is passed. -/
def Vector.scatterDefault (self : Vector α) (array : List α) (indexes : Vector Nat) :
    Option (List α) :=
  self.scatter array indexes (Mask.ofBool true)

end GatherScatter

/-! ## Constants, broadcast, subscript, reductions and `shifted` -/

section Lane

variable {α : Type}

/-- The constructor `Vector(VectorSpecialInitializerZero::ZEnum) : m_data(0)`
(vector.h:68). -/
def Vector.ctorZero [OfNat α 0] : Vector α := ⟨0⟩

/-- The constructor `Vector(VectorSpecialInitializerOne::OEnum) : m_data(1)`
(vector.h:69). -/
def Vector.ctorOne [OfNat α 1] : Vector α := ⟨1⟩

/-- The constructor `Vector(VectorSpecialInitializerIndexesFromZero::IEnum)
: m_data(0)` (vector.h:70). -/
def Vector.ctorIndexesFromZero [OfNat α 0] : Vector α := ⟨0⟩

/-- The factory `One()` (vector.h:72): `r.m_data = 1`. -/
def Vector.One [OfNat α 1] : Vector α := ⟨1⟩

/-- The factory `IndexesFromZero() { return Zero(); }` (vector.h:73). -/
def Vector.IndexesFromZero [OfNat α 0] : Vector α := Vector.Zero

/-- The broadcast constructor `explicit Vector(EntryType x) : m_data(x)`
(vector.h:88). -/
def Vector.broadcast (x : α) : Vector α := ⟨x⟩

/-- A read through the non-const subscript `EntryType &operator[](int index)`
(vector.h:195-198): `assert(index == 0)` and then the reference to `m_data` is
read.  A failed assertion is `none`. -/
def Vector.subscriptRef (v : Vector α) (index : Int) : Option α :=
  if index = 0 then some v.m_data else none

/-- The statement `v[index] = x` through the non-const subscript
(vector.h:195-198): `assert(index == 0)` and then `x` is written to the
returned reference to `m_data`.  The result is the new `*this`; a failed
assertion is `none`. -/
def Vector.subscriptAssign (_v : Vector α) (index : Int) (x : α) : Option (Vector α) :=
  if index = 0 then some ⟨x⟩ else none

/-- The reduction `EntryType min() const { return m_data; }` (vector.h:259). -/
def Vector.min (v : Vector α) : α := v.m_data

/-- The reduction `EntryType max() const { return m_data; }` (vector.h:260). -/
def Vector.max (v : Vector α) : α := v.m_data

/-- The reduction `EntryType product() const { return m_data; }` (vector.h:261). -/
def Vector.product (v : Vector α) : α := v.m_data

/-- The reduction `EntryType sum() const { return m_data; }` (vector.h:262). -/
def Vector.sum (v : Vector α) : α := v.m_data

/-- The reduction `EntryType min(Mask) const { return m_data; }` (vector.h:263);
the mask argument has no name. -/
def Vector.minMask (v : Vector α) (_m : Mask) : α := v.m_data

/-- The reduction `EntryType max(Mask) const { return m_data; }` (vector.h:264). -/
def Vector.maxMask (v : Vector α) (_m : Mask) : α := v.m_data

/-- The reduction `EntryType product(Mask) const { return m_data; }`
(vector.h:265). -/
def Vector.productMask (v : Vector α) (_m : Mask) : α := v.m_data

/-- The reduction `EntryType sum(Mask m) const { if (m) return m_data;
return static_cast<EntryType>(0); }` (vector.h:266). -/
def Vector.sumMask [OfNat α 0] (v : Vector α) (m : Mask) : α :=
  if m.toBool then v.m_data else 0

/-- The member `Vector shifted(int amount) const { return amount == 0 ? *this
: Zero(); }` (vector.h:268). -/
def Vector.shifted [OfNat α 0] (self : Vector α) (amount : Int) : Vector α :=
  if amount = 0 then self else Vector.Zero

end Lane

/-! ## Integer element types

The lane of an integer vector is an `Int` inside the range of its element
type.  The machine model is two's complement: a sum, difference, product or
shifted value computed in a type of width `w` is reduced modulo `2^w` into the
range of that type, a division whose quotient is not a value of the type
traps, and the object representation of a value is its residue modulo `2^w`. -/

/-- An integer element type: signedness and width in bits. -/
structure IntType where
  signed : Bool
  bits : Nat
deriving DecidableEq, Repr

namespace IntType

/-- The element type of `int_v` (vector.h:330). -/
def int : IntType := ⟨true, 32⟩

/-- The element type of `uint_v` (vector.h:331). -/
def uint : IntType := ⟨false, 32⟩

/-- The element type of `short_v` (vector.h:332). -/
def short : IntType := ⟨true, 16⟩

/-- The element type of `ushort_v` (vector.h:333). -/
def ushort : IntType := ⟨false, 16⟩

/-- The values of the type: `[-2^(w-1), 2^(w-1))` when signed, `[0, 2^w)`
otherwise. -/
def InRange (t : IntType) (x : Int) : Prop :=
  if t.signed then -(2 : Int) ^ (t.bits - 1) ≤ x ∧ x < (2 : Int) ^ (t.bits - 1)
  else 0 ≤ x ∧ x < (2 : Int) ^ t.bits

instance (t : IntType) (x : Int) : Decidable (t.InRange x) := by
  unfold InRange
  exact inferInstance

/-- Conversion of an integer to the type: the value of the type congruent to
`x` modulo `2^w`. -/
def wrap (t : IntType) (x : Int) : Int :=
  if t.signed then
    (x + (2 : Int) ^ (t.bits - 1)) % (2 : Int) ^ t.bits - (2 : Int) ^ (t.bits - 1)
  else x % (2 : Int) ^ t.bits

/-- Integral promotion: a type narrower than `int` is promoted to `int`. -/
def promote (t : IntType) : IntType :=
  if t.bits < 32 then int else t

/-- The object representation of a value of the type: its `w` bits, read as a
natural number below `2^w`. -/
def encode (t : IntType) (x : Int) : Nat := (x % (2 : Int) ^ t.bits).toNat

/-- The value of the type whose object representation is the given bits. -/
def decode (t : IntType) (n : Nat) : Int := t.wrap (n : Int)

end IntType

/-! ## Operator families

The lists `VC_ALL_ARITHMETICS`, `VC_ALL_BINARY`, `VC_ALL_SHIFTS` and
`VC_ALL_COMPARES` are defined in `macros.h`, which is not under `src/`. -/

/-- Modelled from the spec: the operators the macros `VC_ALL_ARITHMETICS`,
`VC_ALL_BINARY` and `VC_ALL_SHIFTS` of `macros.h` enumerate; the spec lists
`+ - * / % & | ^ << >>`. -/
inductive BinOp where
  | plus | minus | times | divide | modulo | bitAnd | bitOr | bitXor
  | shiftLeft | shiftRight
deriving DecidableEq, Repr

/-- Modelled from the spec: the operators the macro `VC_ALL_COMPARES` of
`macros.h` enumerates; the spec lists `== != < <= > >=`. -/
inductive CmpOp where
  | eq | ne | lt | le | gt | ge
deriving DecidableEq, Repr

/-- The built-in expression `x symbol y` on two operands of the promoted type
`p`, as the machine computes it.  Division and remainder truncate toward zero;
both are undefined for a zero divisor and when the quotient is not a value of
`p` (`INT_MIN / -1` and `INT_MIN % -1` on `int`), where the division
instruction traps.  A sum, difference, product or shifted value is reduced
modulo `2^w` into `p`; the bitwise operators act on the object
representations; a shift is undefined unless `0 <= y < width of p`, and a
right shift of a negative value is arithmetic. -/
def BinOp.evalPromoted (p : IntType) (op : BinOp) (x y : Int) : Option Int :=
  match op with
  | .plus => some (p.wrap (x + y))
  | .minus => some (p.wrap (x - y))
  | .times => some (p.wrap (x * y))
  | .divide =>
    if y = 0 then none
    else if p.InRange (Int.tdiv x y) then some (Int.tdiv x y) else none
  | .modulo =>
    if y = 0 then none
    else if p.InRange (Int.tdiv x y) then some (Int.tmod x y) else none
  | .bitAnd => some (p.decode (Nat.land (p.encode x) (p.encode y)))
  | .bitOr => some (p.decode (Nat.lor (p.encode x) (p.encode y)))
  | .bitXor => some (p.decode (Nat.xor (p.encode x) (p.encode y)))
  | .shiftLeft =>
    if 0 ≤ y ∧ y < (p.bits : Int) then some (p.wrap (x * (2 : Int) ^ y.toNat)) else none
  | .shiftRight =>
    if 0 ≤ y ∧ y < (p.bits : Int) then some (p.wrap (x / (2 : Int) ^ y.toNat)) else none

/-- The expression `x symbol y` on two operands of element type `t`, converted
back to `t`: the operands are promoted, the operator is applied in the
promoted type, and the result is converted to `EntryType`. -/
def IntType.binop (t : IntType) (op : BinOp) (x y : Int) : Option Int :=
  (op.evalPromoted t.promote x y).map t.wrap

/-- The built-in comparison `x symbol y` on two operands of the same integer
type; promotion preserves their values, so the integers are compared. -/
def CmpOp.eval (op : CmpOp) (x y : Int) : Bool :=
  match op with
  | .eq => decide (x = y)
  | .ne => decide (x ≠ y)
  | .lt => decide (x < y)
  | .le => decide (x ≤ y)
  | .gt => decide (x > y)
  | .ge => decide (x ≥ y)

/-- The comparison `x symbol y` as a proposition about the two integers. -/
def CmpOp.Holds (op : CmpOp) (x y : Int) : Prop :=
  match op with
  | .eq => x = y
  | .ne => x ≠ y
  | .lt => x < y
  | .le => x ≤ y
  | .gt => y < x
  | .ge => y ≤ x

/-- The vector a call returns by reference to `*this`, next to the new value
of `*this`. -/
structure OpAssignResult where
  self : Vector Int
  ret : Vector Int
deriving DecidableEq, Repr

section Operators

/-- The compound assignment of `OPshift(symbol)`,
`Vector &operator symbol##=(const Vector<T> &x) { m_data symbol##= x.m_data;
return *this; }` (vector.h:210), for the element type `t`.  The built-in
`m_data symbol##= y` is `m_data = m_data symbol y` with the result converted
to the type of `m_data`. -/
def Vector.opAssign (t : IntType) (op : BinOp) (self x : Vector Int) :
    Option OpAssignResult :=
  (t.binop op self.m_data x.m_data).map fun r => ⟨⟨r⟩, ⟨r⟩⟩

/-- The compound assignment with a scalar of `OPshift(symbol)`,
`Vector &operator symbol##=(EntryType x) { return operator symbol##=(Vector(x)); }`
(vector.h:211). -/
def Vector.opAssignScalar (t : IntType) (op : BinOp) (self : Vector Int) (x : Int) :
    Option OpAssignResult :=
  Vector.opAssign t op self (Vector.broadcast x)

/-- The binary operator of `OPshift(symbol)`,
`Vector operator symbol(const Vector<T> &x) const { return Vector<T>(m_data
symbol x.m_data); }` (vector.h:212): the promoted result is converted to
`EntryType` by the broadcast constructor. -/
def Vector.opBinary (t : IntType) (op : BinOp) (self x : Vector Int) :
    Option (Vector Int) :=
  (op.evalPromoted t.promote self.m_data x.m_data).map fun r => Vector.broadcast (t.wrap r)

/-- The binary operator with a scalar of `OP(symbol)`,
`operator symbol(TT x) const { return operator symbol(Vector(x)); }`
(vector.h:217), where `TT` is exactly `EntryType`. -/
def Vector.opBinaryScalar (t : IntType) (op : BinOp) (self : Vector Int) (x : Int) :
    Option (Vector Int) :=
  Vector.opBinary t op self (Vector.broadcast x)

/-- The comparison of `OPcmp(symbol)`,
`Mask operator symbol(const Vector<T> &x) const { return Mask(m_data symbol
x.m_data); }` (vector.h:219). -/
def Vector.opCmp (op : CmpOp) (self x : Vector Int) : Mask :=
  Mask.ofBool (op.eval self.m_data x.m_data)

/-- The comparison with a scalar of `OPcmp(symbol)`,
`operator symbol(TT x) const { return Mask(m_data symbol x); }` (vector.h:220),
where `TT` is exactly `EntryType`. -/
def Vector.opCmpScalar (op : CmpOp) (self : Vector Int) (x : Int) : Mask :=
  Mask.ofBool (op.eval self.m_data x)

/-- The member `void fusedMultiplyAdd(const Vector<T> &factor, const Vector<T>
&summand) { m_data = m_data * factor.data() + summand.data(); }`
(vector.h:233-235), for the element type `t`: the product and the sum are
computed in the promoted type and the result is converted to `EntryType`. -/
def Vector.fusedMultiplyAdd (t : IntType) (self factor summand : Vector Int) :
    Vector Int :=
  ⟨t.wrap (t.promote.wrap (t.promote.wrap (self.m_data * factor.data) + summand.data))⟩

/-- The member `template<typename V2> V2 reinterpretCast() const`
(vector.h:242-245), from a vector of element type `t` to the vector type with
element type `t2`: the object representation of `m_data` is read as a `t2`
and broadcast.  The read is defined when the two types have the same width. -/
def Vector.reinterpretCast (t t2 : IntType) (self : Vector Int) : Option (Vector Int) :=
  if t.bits = t2.bits then some (Vector.broadcast (t2.decode (t.encode self.m_data)))
  else none

end Operators

/-! ## Preprocessor names

The `#define`, `#undef` and `#include` lines of `sse/undomacros.h` and of
`scalar/vector.h`, and their effect on the set of defined names.  None of the
files `scalar/vector.h` includes is under `src/`; what including a file does to
the defined names is the parameter `inc`. -/

/-- A preprocessor line that can change the set of defined names. -/
inductive Directive where
  | define (name : String)
  | undef (name : String)
  | includeFile (file : String)
  | ifdefInclude (name : String) (file : String)
deriving DecidableEq, Repr

/-- A header wrapped in an include guard: `#ifndef guard`, `#define guard`,
the body, `#endif`. -/
structure Header where
  guard : String
  body : List Directive
deriving Repr

/-- The effect of one line on the list of defined names. -/
def Directive.step (inc : String → List String → List String) (env : List String)
    (d : Directive) : List String :=
  match d with
  | .define name => name :: env
  | .undef name => env.filter fun n => decide (n ≠ name)
  | .includeFile file => inc file env
  | .ifdefInclude name file => if name ∈ env then inc file env else env

/-- The effect of a list of lines, in order. -/
def processLines (inc : String → List String → List String) (env : List String)
    (ds : List Directive) : List String :=
  ds.foldl (Directive.step inc) env

/-- The effect of a guarded header: nothing when the guard is already
defined; otherwise the guard is defined and the body is processed. -/
def Header.process (inc : String → List String → List String) (env : List String)
    (h : Header) : List String :=
  if h.guard ∈ env then env else processLines inc (h.guard :: env) h.body

/-- The names of the `#undef` lines of `sse/undomacros.h` (lines 23-30). -/
def sseUndefNames : List String :=
  ["CONST", "MAY_ALIAS", "ALIGN", "CAT", "CAT_HELPER", "unrolled_loop16",
    "for_all_vector_entries", "STORE_VECTOR"]

/-- The header `sse/undomacros.h` (lines 20-32). -/
def sseUndomacros : Header :=
  ⟨"SSE_UNDOMACROS_H", sseUndefNames.map Directive.undef⟩

/-- The names `scalar/vector.h` defines for generating the operators, in the
order of their `#define` lines (vector.h:209, 213, 215, 218). -/
def operatorMacroDefines : List String := ["OPshift", "OPshift_int", "OP", "OPcmp"]

/-- The names of the `#undef` lines inside the class (vector.h:227-230). -/
def operatorMacroUndefs : List String := ["OP", "OPcmp", "OPshift", "OPshift_int"]

/-- The `#include` lines at the head of `scalar/vector.h` (lines 23-35). -/
def scalarVectorIncludes : List Directive :=
  [Directive.includeFile "assert.h", Directive.includeFile "algorithm",
    Directive.includeFile "cmath", Directive.ifdefInclude "_MSC_VER" "float.h",
    Directive.includeFile "../common/memoryfwd.h", Directive.includeFile "macros.h",
    Directive.includeFile "types.h", Directive.includeFile "mask.h",
    Directive.includeFile "writemaskedvector.h"]

/-- The `#define` and `#undef` lines inside the class (vector.h:209-230). -/
def scalarVectorOperatorLines : List Directive :=
  operatorMacroDefines.map Directive.define ++ operatorMacroUndefs.map Directive.undef

/-- The `#include` lines at the end of `scalar/vector.h` (lines 472-474). -/
def scalarVectorTrailing : List Directive :=
  [Directive.includeFile "vector.tcc", Directive.includeFile "math.h",
    Directive.includeFile "undomacros.h"]

/-- The header `scalar/vector.h` (lines 20-476). -/
def scalarVector : Header :=
  ⟨"SCALAR_VECTOR_H",
    scalarVectorIncludes ++ scalarVectorOperatorLines ++ scalarVectorTrailing⟩

/-! ## Theorems -/

section WriteMasked

variable {α : Type}

/-- C1: the write-masked assignment `v1(m) = v2` leaves `v1` at its previous
value when `m` is false and makes it equal to `v2` when `m` is true.  `m` and
`v2` are passed by value to `operator()` and to the proxy's assignment, so the
new value of `v1` is the only thing the statement produces. -/
theorem writeMasked_assign (v1 v2 : Vector α) :
    (v1.call (Mask.ofBool false)).assign v2 = v1 ∧
    (v1.call (Mask.ofBool true)).assign v2 = v2 := by
  constructor
  · simp [Vector.call, WriteMaskedVector.assign, Mask.toBool, Mask.ofBool]
  · simp [Vector.call, WriteMaskedVector.assign, Mask.toBool, Mask.ofBool,
      Vector.assignCopy, Vector.data]

end WriteMasked

section Pack

variable {α : Type}

/-- C2: with `m1 = false` and `m2 = true`, `self.pack(m1, v2, m2)` returns
true, sets `m1` to true and `m2` to false, and `self` holds the value `v2`
held before the call (`v2` itself keeps it). -/
theorem pack_moves (self v2 : Vector α) :
    (self.pack (Mask.ofBool false) v2 (Mask.ofBool true)).ret = true ∧
    (self.pack (Mask.ofBool false) v2 (Mask.ofBool true)).m1 = Mask.ofBool true ∧
    (self.pack (Mask.ofBool false) v2 (Mask.ofBool true)).m2 = Mask.ofBool false ∧
    (self.pack (Mask.ofBool false) v2 (Mask.ofBool true)).self.m_data = v2.m_data ∧
    (self.pack (Mask.ofBool false) v2 (Mask.ofBool true)).v2 = v2 := by
  simp [Vector.pack, Mask.ofBool]

/-- C3: for every `(m1, m2)` other than `(false, true)`, `self.pack(m1, v2, m2)`
leaves `self`, `m1`, `v2` and `m2` unchanged; it returns true when `m1` is true
(whatever `m2` is) and false when `m1` and `m2` are both false. -/
theorem pack_noop (self v2 : Vector α) (m1 m2 : Mask)
    (h : ¬ (m1.data = false ∧ m2.data = true)) :
    (self.pack m1 v2 m2).self = self ∧
    (self.pack m1 v2 m2).m1 = m1 ∧
    (self.pack m1 v2 m2).v2 = v2 ∧
    (self.pack m1 v2 m2).m2 = m2 ∧
    (m1.data = true → (self.pack m1 v2 m2).ret = true) ∧
    (m1.data = false → m2.data = false → (self.pack m1 v2 m2).ret = false) := by
  obtain ⟨b1⟩ := m1
  obtain ⟨b2⟩ := m2
  cases b1 <;> cases b2 <;> simp_all [Vector.pack, Mask.toBool]

/-- C3, at `m1 = true`, `m2 = true`, `self = 5`, `v2 = 7`: nothing moves and
the call returns true. -/
theorem pack_noop_witness :
    ¬ ((Mask.mk true).data = false ∧ (Mask.mk true).data = true) ∧
    ((Vector.mk (5 : Int)).pack (Mask.mk true) (Vector.mk 7) (Mask.mk true)).self
      = Vector.mk 5 ∧
    ((Vector.mk (5 : Int)).pack (Mask.mk true) (Vector.mk 7) (Mask.mk true)).ret = true :=
  have h := pack_noop (Vector.mk (5 : Int)) (Vector.mk 7) (Mask.mk true) (Mask.mk true)
    (by decide)
  ⟨by decide, h.1, h.2.2.2.2.1 rfl⟩

end Pack

section LoadStore

variable {α β A : Type}

/-- C4, as stated, fails: a vector holding 5 keeps 5 after `load(mem, m)` with
`m` false on the buffer `[7]`; it does not hold zero. -/
theorem loadMask_false_not_zero :
    (Vector.mk (5 : Int)).loadMask [7] (Mask.ofBool false) = some (Vector.mk 5) ∧
    (Vector.mk (5 : Int)).loadMask [7] (Mask.ofBool false) ≠ some (Vector.mk 0) := by
  decide

/-- C4, amended: for every vector `v`, buffer `mem` with an element 0 and mask
`m`, after `v.load(mem, m)` the vector holds `mem[0]` when `m` is true and its
previous value when `m` is false.  The same holds for the converting overload,
with `mem[0]` converted to the element type. -/
theorem loadMask_spec (v : Vector α) (mem : List α) (m : Mask) (cast : β → α)
    (memOther : List β) (h : 0 < mem.length) (hOther : 0 < memOther.length) :
    v.loadMask mem m = some (if m.data = true then Vector.mk mem[0] else v) ∧
    v.loadOtherMask cast memOther m
      = some (if m.data = true then Vector.mk (cast memOther[0]) else v) := by
  constructor
  · by_cases hm : m.data = true <;>
      simp [Vector.loadMask, readAt, hm, List.getElem?_eq_getElem h]
  · by_cases hm : m.data = true <;>
      simp [Vector.loadOtherMask, readAt, hm, List.getElem?_eq_getElem hOther]

/-- C4, amended, at `v = 5`, `mem = [7]`, `m = true`: the vector holds 7. -/
theorem loadMask_spec_witness :
    (0 < [(7 : Int)].length ∧ 0 < [(9 : Int)].length) ∧
    (Vector.mk (5 : Int)).loadMask [7] (Mask.mk true) = some (Vector.mk 7) :=
  ⟨by decide,
    (loadMask_spec (Vector.mk (5 : Int)) [7] (Mask.mk true) (fun y : Int => y) [9]
      (by decide) (by decide)).1⟩

/-- C5, as stated, fails: the vector constructed from the pointer to `[7]`
together with a false mask holds 7, not zero. -/
theorem ctorLoadA_false_not_zero :
    Vector.ctorLoadA [(7 : Int)] (Mask.ofBool false) = some (Vector.mk 7) ∧
    Vector.ctorLoadA [(7 : Int)] (Mask.ofBool false) ≠ some (Vector.mk 0) := by
  decide

/-- C5, amended: for every buffer `mem` with an element 0 and every mask `m`,
the vector constructed from the pointer `mem` together with `m` holds `mem[0]`,
whatever `m` is: the second argument of the load constructors is an ignored
hint, so the result is that of the one-argument constructor. -/
theorem ctorLoadA_spec (mem : List α) (m : Mask) (h : 0 < mem.length) :
    Vector.ctorLoadA mem m = some (Vector.mk mem[0]) ∧
    Vector.ctorLoadA mem m = Vector.ctorLoad mem := by
  simp [Vector.ctorLoadA, Vector.ctorLoad, readAt, List.getElem?_eq_getElem h]

/-- C5, amended, at `mem = [7]` with a false mask: the vector holds 7. -/
theorem ctorLoadA_spec_witness :
    0 < [(7 : Int)].length ∧
    Vector.ctorLoadA [(7 : Int)] (Mask.mk false) = some (Vector.mk 7) :=
  ⟨by decide, (ctorLoadA_spec [(7 : Int)] (Mask.mk false) (by decide)).1⟩

end LoadStore

section GatherScatter

variable {α : Type}

/-- C6, as stated, fails: a vector holding 5 keeps 5 after
`gather(array, indexes, m)` with `m` false, `array = [7]` and index 0; it does
not hold zero. -/
theorem gather_false_not_zero :
    (Vector.mk (5 : Int)).gather [7] (Vector.mk 0) (Mask.ofBool false)
      = some (Vector.mk 5) ∧
    (Vector.mk (5 : Int)).gather [7] (Vector.mk 0) (Mask.ofBool false)
      ≠ some (Vector.mk 0) := by
  decide

/-- C6, amended: for every vector `v`, array, index vector whose element 0 is
in range, and mask `m`, after `v.gather(array, indexes, m)` the vector holds
`array[indexes[0]]` when `m` is true and its previous value when `m` is false;
with the mask omitted it holds `array[indexes[0]]`. -/
theorem gather_spec (v : Vector α) (array : List α) (indexes : Vector Nat) (m : Mask)
    (hi : indexes.m_data < array.length) :
    v.gather array indexes m
      = some (if m.data = true then Vector.mk array[indexes.m_data] else v) ∧
    v.gatherDefault array indexes = some (Vector.mk array[indexes.m_data]) := by
  constructor
  · by_cases hm : m.data = true <;>
      simp [Vector.gather, Vector.subscript, readAt, hm, List.getElem?_eq_getElem hi]
  · simp [Vector.gatherDefault, Vector.gather, Vector.subscript, readAt, Mask.ofBool,
      List.getElem?_eq_getElem hi]

/-- C6, amended, at `v = 5`, `array = [7, 8]`, index 1, `m = true`: the vector
holds 8. -/
theorem gather_spec_witness :
    (Vector.mk 1 : Vector Nat).m_data < [(7 : Int), 8].length ∧
    (Vector.mk (5 : Int)).gather [7, 8] (Vector.mk 1) (Mask.mk true)
      = some (Vector.mk 8) :=
  ⟨by decide,
    (gather_spec (Vector.mk (5 : Int)) [7, 8] (Vector.mk 1) (Mask.mk true) (by decide)).1⟩

/-- C7: for every array, index vector whose element 0 is in range, and mask
`m`, the masked gather constructor `Vector(array, indexes, m)` gives a vector
holding `array[indexes[0]]` when `m` is true and zero when `m` is false; the
unmasked gather constructors (index vector, or pointer to the indexes) give the
result of the masked one with `m = true`. -/
theorem ctorGatherMask_spec [OfNat α 0] (array : List α) (indexes : Vector Nat)
    (m : Mask) (rest : List Nat) (hi : indexes.m_data < array.length) :
    Vector.ctorGatherMask array indexes m
      = some (if m.data = true then Vector.mk array[indexes.m_data] else Vector.mk 0) ∧
    Vector.ctorGather array indexes
      = Vector.ctorGatherMask array indexes (Mask.ofBool true) ∧
    Vector.ctorGatherPtr array (indexes.m_data :: rest)
      = Vector.ctorGatherMask array indexes (Mask.ofBool true) := by
  refine ⟨?_, ?_, ?_⟩
  · by_cases hm : m.data = true <;>
      simp [Vector.ctorGatherMask, Vector.subscript, readAt, hm,
        List.getElem?_eq_getElem hi]
  · simp [Vector.ctorGather, Vector.ctorGatherMask, Mask.ofBool]
  · simp [Vector.ctorGatherPtr, Vector.ctorGatherMask, Vector.subscript, readAt,
      Mask.ofBool]

/-- C7, at `array = [7, 8]`, index 1: the masked constructor gives 8 with a
true mask and 0 with a false mask. -/
theorem ctorGatherMask_spec_witness :
    (Vector.mk 1 : Vector Nat).m_data < [(7 : Int), 8].length ∧
    Vector.ctorGatherMask [(7 : Int), 8] (Vector.mk 1) (Mask.mk true)
      = some (Vector.mk 8) ∧
    Vector.ctorGatherMask [(7 : Int), 8] (Vector.mk 1) (Mask.mk false)
      = some (Vector.mk 0) :=
  ⟨by decide,
    (ctorGatherMask_spec [(7 : Int), 8] (Vector.mk 1) (Mask.mk true) [] (by decide)).1,
    (ctorGatherMask_spec [(7 : Int), 8] (Vector.mk 1) (Mask.mk false) [] (by decide)).1⟩

/-- C8: for every vector `v`, array and index vector whose element 0 is in
range, `v.scatter(array, indexes, m)` with `m` false leaves the array as it
was; with `m` true, or with the mask omitted, the array keeps its length, holds
`v`'s value at `indexes[0]` and its previous element everywhere else.
`scatter` is a `const` member: the array is its only output and `v` is not
written. -/
theorem scatter_spec (v : Vector α) (array : List α) (indexes : Vector Nat)
    (hi : indexes.m_data < array.length) :
    v.scatter array indexes (Mask.ofBool false) = some array ∧
    ∃ array' : List α,
      v.scatter array indexes (Mask.ofBool true) = some array' ∧
      v.scatterDefault array indexes = some array' ∧
      array'.length = array.length ∧
      array'[indexes.m_data]? = some v.m_data ∧
      ∀ j : Nat, j ≠ indexes.m_data → array'[j]? = array[j]? := by
  refine ⟨by simp [Vector.scatter, Mask.ofBool], array.set indexes.m_data v.m_data,
    ?_, ?_, ?_, ?_, ?_⟩
  · simp [Vector.scatter, Vector.subscript, writeAt, Mask.ofBool, hi]
  · simp [Vector.scatterDefault, Vector.scatter, Vector.subscript, writeAt,
      Mask.ofBool, hi]
  · simp
  · simp [hi]
  · intro j hj
    simp [List.getElem?_set_ne (Ne.symm hj)]

/-- C8, at `v = 5`, `array = [7, 8]`, index 1: a false mask leaves `[7, 8]`. -/
theorem scatter_spec_witness :
    (Vector.mk 1 : Vector Nat).m_data < [(7 : Int), 8].length ∧
    (Vector.mk (5 : Int)).scatter [7, 8] (Vector.mk 1) (Mask.ofBool false)
      = some [7, 8] :=
  ⟨by decide, (scatter_spec (Vector.mk (5 : Int)) [7, 8] (Vector.mk 1) (by decide)).1⟩

end GatherScatter

section StoreRoundTrip

variable {α A : Type}

/-- C9: for every vector `v`, destination buffer `mem` with an element 0 and
mask `m`, `v.store(mem, m)` leaves `mem` as it was when `m` is false; when `m`
is true the buffer keeps its length, holds `v`'s value at offset 0 and its
previous element everywhere else.  The overloads with an extra hint argument
produce the memory of `store(mem)` and `store(mem, m)`. -/
theorem store_spec (v : Vector α) (mem : List α) (a : A) (h : 0 < mem.length) :
    v.storeMask mem (Mask.ofBool false) = some mem ∧
    (∃ mem' : List α,
      v.storeMask mem (Mask.ofBool true) = some mem' ∧
      v.store mem = some mem' ∧
      mem'.length = mem.length ∧
      mem'[0]? = some v.m_data ∧
      ∀ j : Nat, j ≠ 0 → mem'[j]? = mem[j]?) ∧
    v.storeA mem a = v.store mem ∧
    ∀ m : Mask, v.storeMaskA mem m a = v.storeMask mem m := by
  refine ⟨by simp [Vector.storeMask, Mask.ofBool], ⟨mem.set 0 v.m_data, ?_, ?_, ?_, ?_, ?_⟩,
    rfl, fun _ => rfl⟩
  · simp [Vector.storeMask, writeAt, Mask.ofBool, h]
  · simp [Vector.store, writeAt, h]
  · simp
  · simp [h]
  · intro j hj
    simp [List.getElem?_set_ne (Ne.symm hj)]

/-- C9, at `v = 5`, `mem = [7, 8]`: a false mask leaves `[7, 8]`, and the
hinted store gives the memory of the plain store. -/
theorem store_spec_witness :
    0 < [(7 : Int), 8].length ∧
    (Vector.mk (5 : Int)).storeMask [7, 8] (Mask.ofBool false) = some [7, 8] ∧
    (Vector.mk (5 : Int)).storeA [7, 8] () = (Vector.mk (5 : Int)).store [7, 8] :=
  ⟨by decide,
    (store_spec (Vector.mk (5 : Int)) [7, 8] () (by decide)).1,
    (store_spec (Vector.mk (5 : Int)) [7, 8] () (by decide)).2.2.1⟩

/-- C10: load/store round trip.  For every source buffer `src` and destination
buffer `dst` with an element 0 each, constructing a vector from `src` succeeds
and storing it into `dst` succeeds, after which `dst[0]` equals `src[0]`, the
rest of `dst` is as before, and loading `dst` again gives the same vector.
`src` is read through a pointer to `const` and is not an output of either
call. -/
theorem load_store_roundtrip (src dst : List α) (hs : 0 < src.length)
    (hd : 0 < dst.length) :
    ∃ (v : Vector α) (dst' : List α),
      Vector.ctorLoad src = some v ∧
      v.store dst = some dst' ∧
      dst'[0]? = some src[0] ∧
      dst'.length = dst.length ∧
      (∀ j : Nat, j ≠ 0 → dst'[j]? = dst[j]?) ∧
      Vector.ctorLoad dst' = some v := by
  refine ⟨Vector.mk src[0], dst.set 0 src[0], ?_, ?_, ?_, ?_, ?_, ?_⟩
  · simp [Vector.ctorLoad, readAt, List.getElem?_eq_getElem hs]
  · simp [Vector.store, writeAt, hd]
  · simp [hd]
  · simp
  · intro j hj
    simp [List.getElem?_set_ne (Ne.symm hj)]
  · simp [Vector.ctorLoad, readAt, hd]

/-- C10, at `src = [7, 8]`, `dst = [1, 2]`. -/
theorem load_store_roundtrip_witness :
    (0 < [(7 : Int), 8].length ∧ 0 < [(1 : Int), 2].length) ∧
    ∃ (v : Vector Int) (dst' : List Int),
      Vector.ctorLoad [(7 : Int), 8] = some v ∧
      v.store [1, 2] = some dst' ∧
      dst'[0]? = some 7 :=
  ⟨by decide,
    let ⟨v, dst', h1, h2, h3, _⟩ :=
      load_store_roundtrip [(7 : Int), 8] [(1 : Int), 2] (by decide) (by decide)
    ⟨v, dst', h1, h2, h3⟩⟩

end StoreRoundTrip

section Lane

variable {α : Type}

/-- C11: for every vector `x` and every integer `n`, `x.shifted(0)` equals `x`
and `x.shifted(n)` equals `Vector::Zero()` whenever `n` is nonzero, positive or
negative.  `shifted` is a `const` member returning a new vector, so `x` is not
written. -/
theorem shifted_spec [OfNat α 0] (x : Vector α) (n : Int) :
    x.shifted 0 = x ∧ (n ≠ 0 → x.shifted n = Vector.Zero) := by
  constructor
  · simp [Vector.shifted]
  · intro hn
    simp [Vector.shifted, hn]

/-- C12: for every vector `v`, the masked reduction `v.sum(m)` returns `v`'s
value when `m` is true and 0 when `m` is false; the unmasked `v.sum()` returns
`v`'s value. -/
theorem sumMask_spec [OfNat α 0] (v : Vector α) :
    v.sumMask (Mask.ofBool true) = v.m_data ∧
    v.sumMask (Mask.ofBool false) = 0 ∧
    v.sum = v.m_data := by
  simp [Vector.sumMask, Vector.sum, Mask.toBool, Mask.ofBool]

/-- C13: for every vector `v` and every mask `m`, false included, the masked
reductions `v.min(m)`, `v.max(m)` and `v.product(m)` each return `v`'s value,
which is also the result of the unmasked `v.min()`, `v.max()`, `v.product()`. -/
theorem minMaxProductMask_spec (v : Vector α) (m : Mask) :
    v.minMask m = v.m_data ∧ v.maxMask m = v.m_data ∧ v.productMask m = v.m_data ∧
    v.minMask m = v.min ∧ v.maxMask m = v.max ∧ v.productMask m = v.product := by
  simp [Vector.minMask, Vector.maxMask, Vector.productMask, Vector.min, Vector.max,
    Vector.product]

/-- C15: for all vectors `self`, `v` and every mask `m`, after
`self.assign(v, m)` the vector `self` holds `v`'s value when `m` is true and
its previous value when `m` is false.  `v` and `m` are passed by `const`
reference, so the new `self` is the only thing the call produces. -/
theorem assign_spec (self v : Vector α) (m : Mask) :
    (m.data = true → self.assign v m = v) ∧
    (m.data = false → self.assign v m = self) ∧
    self.assign v (Mask.ofBool true) = v ∧
    self.assign v (Mask.ofBool false) = self := by
  refine ⟨?_, ?_, ?_, ?_⟩
  · intro hm
    simp [Vector.assign, hm]
  · intro hm
    simp [Vector.assign, hm]
  · simp [Vector.assign, Mask.ofBool]
  · simp [Vector.assign, Mask.ofBool]

/-- C16: for every element type with literals 0 and 1, `Zero().sum()` is 0,
`One().sum()` is 1 and `IndexesFromZero()` equals `Zero()`; the constructors
from the special initializers build the same three vectors. -/
theorem constants_spec [OfNat α 0] [OfNat α 1] :
    (Vector.Zero : Vector α).sum = 0 ∧
    (Vector.One : Vector α).sum = 1 ∧
    (Vector.IndexesFromZero : Vector α) = Vector.Zero ∧
    (Vector.ctorZero : Vector α) = Vector.Zero ∧
    (Vector.ctorOne : Vector α) = Vector.One ∧
    (Vector.ctorIndexesFromZero : Vector α) = Vector.IndexesFromZero := by
  simp [Vector.Zero, Vector.One, Vector.IndexesFromZero, Vector.sum, Vector.ctorZero,
    Vector.ctorOne, Vector.ctorIndexesFromZero]

/-- C20: index 0 is the only valid lane index.  For every vector `v`, `v[0]`
passes the assertion and returns `v`'s value, through the const and the
non-const subscript, and `v[0] = x` passes it and replaces `v`'s value by `x`;
for every index other than 0 the assertion `index == 0` fails in both
subscripts. -/
theorem subscript_spec (v : Vector α) (x : α) (index : Int) :
    v.subscript 0 = some v.m_data ∧
    v.subscriptRef 0 = some v.m_data ∧
    v.subscriptAssign 0 x = some (Vector.mk x) ∧
    (index ≠ 0 →
      v.subscript index = none ∧ v.subscriptRef index = none ∧
      v.subscriptAssign index x = none) ∧
    (v.subscript index ≠ none → index = 0) := by
  refine ⟨?_, ?_, ?_, ?_, ?_⟩
  · simp [Vector.subscript]
  · simp [Vector.subscriptRef]
  · simp [Vector.subscriptAssign]
  · intro hi
    simp [Vector.subscript, Vector.subscriptRef, Vector.subscriptAssign, hi]
  · intro h
    by_contra hi
    simp [Vector.subscript, hi] at h

end Lane

section Compare

/-- C14: for every relational operator `op` of `== != < <= > >=` and all
integer vectors `a`, `b`, the mask returned by `a op b` is true if and only if
the comparison of the two held values holds; the overload taking a scalar `x`
returns the mask of the comparison against the vector broadcast from `x`. -/
theorem opCmp_spec (op : CmpOp) (a b : Vector Int) (x : Int) :
    ((a.opCmp op b).data = true ↔ op.Holds a.data b.data) ∧
    a.opCmpScalar op x = a.opCmp op (Vector.broadcast x) := by
  constructor
  · cases op <;>
      simp [Vector.opCmp, CmpOp.eval, CmpOp.Holds, Mask.ofBool, Vector.data]
  · simp [Vector.opCmpScalar, Vector.opCmp, Vector.broadcast]

end Compare

section IntegerTypes

/-- Conversion to a type gives a value congruent to the argument modulo
`2^w`. -/
theorem wrap_modEq (t : IntType) (x : Int) : t.wrap x ≡ x [ZMOD (2 : Int) ^ t.bits] := by
  unfold IntType.wrap
  split
  · have h := (Int.mod_modEq (x + (2 : Int) ^ (t.bits - 1)) ((2 : Int) ^ t.bits)).sub_right
      ((2 : Int) ^ (t.bits - 1))
    simpa using h
  · exact Int.mod_modEq x _

/-- Conversion to a type depends only on the residue modulo `2^w`. -/
theorem wrap_congr (t : IntType) {x y : Int} (h : x ≡ y [ZMOD (2 : Int) ^ t.bits]) :
    t.wrap x = t.wrap y := by
  unfold IntType.wrap
  split
  · have h2 := h.add_right ((2 : Int) ^ (t.bits - 1))
    unfold Int.ModEq at h2
    rw [h2]
  · exact h

/-- Conversion to a type of positive width lands in the range of the type. -/
theorem wrap_inRange (t : IntType) (x : Int) (hw : 0 < t.bits) : t.InRange (t.wrap x) := by
  have hpos : (0 : Int) < (2 : Int) ^ t.bits := by positivity
  have hsplit : (2 : Int) ^ t.bits = 2 * (2 : Int) ^ (t.bits - 1) := by
    rw [← pow_succ']
    congr 1
    omega
  unfold IntType.InRange IntType.wrap
  split
  · have h1 := Int.emod_nonneg (x + (2 : Int) ^ (t.bits - 1)) (ne_of_gt hpos)
    have h2 := Int.emod_lt_of_pos (x + (2 : Int) ^ (t.bits - 1)) hpos
    constructor <;> omega
  · exact ⟨Int.emod_nonneg _ (ne_of_gt hpos), Int.emod_lt_of_pos _ hpos⟩

/-- Conversion to a type leaves a value of the type as it is. -/
theorem wrap_of_inRange (t : IntType) (x : Int) (hw : 0 < t.bits) (hx : t.InRange x) :
    t.wrap x = x := by
  have hsplit : (2 : Int) ^ t.bits = 2 * (2 : Int) ^ (t.bits - 1) := by
    rw [← pow_succ']
    congr 1
    omega
  unfold IntType.InRange at hx
  unfold IntType.wrap
  split
  · rename_i hs
    simp only [hs, if_true] at hx
    rw [Int.emod_eq_of_lt (by omega) (by omega)]
    omega
  · rename_i hs
    simp only [hs] at hx
    exact Int.emod_eq_of_lt hx.1 hx.2

/-- The promoted type is at least as wide as the type. -/
theorem bits_le_promote (t : IntType) : t.bits ≤ t.promote.bits := by
  unfold IntType.promote
  split
  · simp [IntType.int]
    omega
  · exact le_refl _

/-- The modulus of a type divides the modulus of its promoted type. -/
theorem promote_dvd (t : IntType) : (2 : Int) ^ t.bits ∣ (2 : Int) ^ t.promote.bits :=
  pow_dvd_pow 2 (bits_le_promote t)

/-- The object representation, as an integer, is the residue modulo `2^w`. -/
theorem encode_cast (t : IntType) (x : Int) :
    ((t.encode x : Nat) : Int) = x % (2 : Int) ^ t.bits := by
  have hpos : (0 : Int) < (2 : Int) ^ t.bits := by positivity
  unfold IntType.encode
  exact Int.toNat_of_nonneg (Int.emod_nonneg _ (ne_of_gt hpos))

/-- Reading the representation of `x` in a type of the same width gives `x`
converted to that type. -/
theorem decode_encode (t t2 : IntType) (hb : t.bits = t2.bits) (x : Int) :
    t2.decode (t.encode x) = t2.wrap x := by
  unfold IntType.decode
  rw [encode_cast]
  apply wrap_congr
  rw [hb]
  exact Int.mod_modEq x _

/-- Between two types of the same width, `reinterpretCast` is defined and
holds the value converted to the target type. -/
theorem reinterpretCast_eq (t t2 : IntType) (hb : t.bits = t2.bits) (v : Vector Int) :
    v.reinterpretCast t t2 = some (Vector.mk (t2.wrap v.m_data)) := by
  simp [Vector.reinterpretCast, hb, Vector.broadcast, decode_encode t t2 hb]

/-- The truncated quotient of two values of a type is a value of the type,
unless the type is signed, the dividend is its minimum and the divisor is
`-1`. -/
theorem tdiv_inRange (p : IntType) (x y : Int) (hx : p.InRange x) (hy : p.InRange y)
    (hy0 : y ≠ 0)
    (hov : ¬ (p.signed = true ∧ x = -(2 : Int) ^ (p.bits - 1) ∧ y = -1)) :
    p.InRange (Int.tdiv x y) := by
  unfold IntType.InRange at hx hy ⊢
  by_cases hs : p.signed = true
  · simp only [hs, if_true, true_and] at hx hy hov ⊢
    have hq : (Int.tdiv x y).natAbs = x.natAbs / y.natAbs := Int.natAbs_tdiv x y
    by_cases h1 : y = 1
    · subst h1
      rw [Int.tdiv_one]
      exact hx
    · by_cases h2 : y = -1
      · subst h2
        have hne : x ≠ -(2 : Int) ^ (p.bits - 1) := fun h => hov ⟨h, rfl⟩
        rw [Int.tdiv_neg, Int.tdiv_one]
        constructor <;> omega
      · have h3 : 2 ≤ y.natAbs := by omega
        have h4 : x.natAbs / y.natAbs ≤ x.natAbs / 2 :=
          Nat.div_le_div_left h3 (by decide)
        constructor <;> omega
  · simp only [hs] at hx hy ⊢
    rw [Int.tdiv_eq_ediv hx.1 hy.1]
    have h1 : 0 ≤ x / y := Int.ediv_nonneg hx.1 hy.1
    have h2 : x / y ≤ x := Int.ediv_le_self y hx.1
    exact ⟨h1, lt_of_le_of_lt h2 hx.2⟩

/-- A value of a type is a value of its promoted type. -/
theorem inRange_promote (t : IntType) (x : Int) (hx : t.InRange x) :
    t.promote.InRange x := by
  unfold IntType.promote
  split
  · rename_i hb
    unfold IntType.InRange at hx ⊢
    have hm1 : (2 : Int) ^ (t.bits - 1) ≤ (2 : Int) ^ 31 :=
      pow_le_pow_right₀ (by norm_num) (by omega)
    have hm2 : (2 : Int) ^ t.bits ≤ (2 : Int) ^ 31 :=
      pow_le_pow_right₀ (by norm_num) (by omega)
    simp only [IntType.int, if_true]
    show -(2 : Int) ^ 31 ≤ x ∧ x < (2 : Int) ^ 31
    split at hx <;> constructor <;> omega
  · exact hx

/-- The built-in operators are defined when, for `/` and `%`, the divisor is
not zero and the quotient is a value of the promoted type, and the amount of a
shift is inside the width of the promoted type. -/
theorem evalPromoted_isSome (p : IntType) (op : BinOp) (x y : Int)
    (hdiv : op = BinOp.divide ∨ op = BinOp.modulo → y ≠ 0)
    (hquot : op = BinOp.divide ∨ op = BinOp.modulo → p.InRange (Int.tdiv x y))
    (hshift : op = BinOp.shiftLeft ∨ op = BinOp.shiftRight → 0 ≤ y ∧ y < (p.bits : Int)) :
    ∃ r : Int, op.evalPromoted p x y = some r := by
  cases op <;> simp [BinOp.evalPromoted] at hdiv hquot hshift ⊢
  · simp [hdiv, hquot]
  · simp [hdiv, hquot]
  · simp [hshift]
  · simp [hshift]

end IntegerTypes

section IntegerLanes

/-- C17: `reinterpretCast` between the integer types of the same width keeps
the bits.  For every `int` value `x`, the cast of an `int_v` holding `x` to
`uint_v` holds `x` modulo `2^32`, and casting that vector back to `int_v`
gives `x` again; likewise for every `short` value `y` with `ushort_v` and
`2^16`. -/
theorem reinterpretCast_spec (x y : Int) (hx : IntType.int.InRange x)
    (hy : IntType.short.InRange y) :
    (Vector.mk x).reinterpretCast IntType.int IntType.uint
      = some (Vector.mk (x % (2 : Int) ^ 32)) ∧
    (Vector.mk (x % (2 : Int) ^ 32)).reinterpretCast IntType.uint IntType.int
      = some (Vector.mk x) ∧
    (Vector.mk y).reinterpretCast IntType.short IntType.ushort
      = some (Vector.mk (y % (2 : Int) ^ 16)) ∧
    (Vector.mk (y % (2 : Int) ^ 16)).reinterpretCast IntType.ushort IntType.short
      = some (Vector.mk y) := by
  have hi : IntType.int.wrap (x % (2 : Int) ^ 32) = x :=
    (wrap_congr IntType.int (Int.mod_modEq x ((2 : Int) ^ IntType.int.bits))).trans
      (wrap_of_inRange IntType.int x (by decide) hx)
  have hs : IntType.short.wrap (y % (2 : Int) ^ 16) = y :=
    (wrap_congr IntType.short (Int.mod_modEq y ((2 : Int) ^ IntType.short.bits))).trans
      (wrap_of_inRange IntType.short y (by decide) hy)
  refine ⟨?_, ?_, ?_, ?_⟩
  · rw [reinterpretCast_eq IntType.int IntType.uint rfl]
    rfl
  · rw [reinterpretCast_eq IntType.uint IntType.int rfl]
    exact congrArg (fun z => some (Vector.mk z)) hi
  · rw [reinterpretCast_eq IntType.short IntType.ushort rfl]
    rfl
  · rw [reinterpretCast_eq IntType.ushort IntType.short rfl]
    exact congrArg (fun z => some (Vector.mk z)) hs

/-- C17, at `x = -1` and `y = -2`: the casts hold `4294967295` and `65534`. -/
theorem reinterpretCast_spec_witness :
    (IntType.int.InRange (-1) ∧ IntType.short.InRange (-2)) ∧
    (Vector.mk (-1 : Int)).reinterpretCast IntType.int IntType.uint
      = some (Vector.mk 4294967295) ∧
    (Vector.mk (-2 : Int)).reinterpretCast IntType.short IntType.ushort
      = some (Vector.mk 65534) :=
  ⟨by decide,
    (reinterpretCast_spec (-1) (-2) (by decide) (by decide)).1,
    (reinterpretCast_spec (-1) (-2) (by decide) (by decide)).2.2.1⟩

/-- C18, as stated, fails: on `int` lanes with `a = INT_MIN` and `b = -1`, a
nonzero divisor, neither `a / b` nor `a /= b`, and neither `a % b` nor
`a %= b`, produces a value: the quotient `2^31` is not an `int` and the
division traps. -/
theorem opAssign_quotient_overflow :
    IntType.int.InRange (-2147483648) ∧ IntType.int.InRange (-1) ∧ (-1 : Int) ≠ 0 ∧
    (Vector.mk (-2147483648)).opBinary IntType.int BinOp.divide (Vector.mk (-1)) = none ∧
    (Vector.mk (-2147483648)).opAssign IntType.int BinOp.divide (Vector.mk (-1)) = none ∧
    (Vector.mk (-2147483648)).opBinary IntType.int BinOp.modulo (Vector.mk (-1)) = none ∧
    (Vector.mk (-2147483648)).opAssign IntType.int BinOp.modulo (Vector.mk (-1)) = none := by
  decide

/-- C18, amended: for every operator `op` of `+ - * / % & | ^ << >>`, every
integer element type and all vectors `a`, `b` holding values of it, with, for
`/` and `%`, `b` nonzero and not the minimum of the promoted signed type
divided by `-1` (`INT_MIN / -1` on `int` lanes), and the amount of a shift
inside the width of the type: the binary expression `a op b` produces a vector
`r`, and after `a op= b` the vector `a` holds `r` and the returned reference,
which is `*this`, designates that same value.  The form taking a scalar `x` is
`a op= Vector(x)`.  `b` is passed by `const` reference and is not written. -/
theorem opAssign_spec (t : IntType) (op : BinOp) (a b : Vector Int) (x : Int)
    (ha : t.InRange a.m_data) (hb : t.InRange b.m_data)
    (hdiv : op = BinOp.divide ∨ op = BinOp.modulo → b.m_data ≠ 0)
    (hquot : op = BinOp.divide ∨ op = BinOp.modulo →
      ¬ (t.promote.signed = true ∧ a.m_data = -(2 : Int) ^ (t.promote.bits - 1) ∧
        b.m_data = -1))
    (hshift : op = BinOp.shiftLeft ∨ op = BinOp.shiftRight →
      0 ≤ b.m_data ∧ b.m_data < (t.bits : Int)) :
    (∃ r : Vector Int,
      a.opBinary t op b = some r ∧
      a.opAssign t op b = some (OpAssignResult.mk r r)) ∧
    a.opAssignScalar t op x = a.opAssign t op (Vector.broadcast x) := by
  have hle : (t.bits : Int) ≤ (t.promote.bits : Int) := by
    exact_mod_cast bits_le_promote t
  obtain ⟨r, hr⟩ := evalPromoted_isSome t.promote op a.m_data b.m_data hdiv
    (fun h => tdiv_inRange t.promote a.m_data b.m_data (inRange_promote t _ ha)
      (inRange_promote t _ hb) (hdiv h) (hquot h))
    (fun h => ⟨(hshift h).1, lt_of_lt_of_le (hshift h).2 hle⟩)
  refine ⟨⟨Vector.mk (t.wrap r), ?_, ?_⟩, rfl⟩
  · simp [Vector.opBinary, hr, Vector.broadcast]
  · simp [Vector.opAssign, IntType.binop, hr]

/-- C18, amended, at `int` vectors `a = -7`, `b = 2` and `op = /`: the quotient
is `-3`, held by `a` after `a /= b`. -/
theorem opAssign_spec_witness :
    (IntType.int.InRange (-7) ∧ IntType.int.InRange 2 ∧
     (BinOp.divide = BinOp.divide ∨ BinOp.divide = BinOp.modulo → (2 : Int) ≠ 0) ∧
     (BinOp.divide = BinOp.divide ∨ BinOp.divide = BinOp.modulo →
       ¬ (IntType.int.promote.signed = true ∧
         (-7 : Int) = -(2 : Int) ^ (IntType.int.promote.bits - 1) ∧ (2 : Int) = -1)) ∧
     (BinOp.divide = BinOp.shiftLeft ∨ BinOp.divide = BinOp.shiftRight →
       0 ≤ (2 : Int) ∧ (2 : Int) < (IntType.int.bits : Int))) ∧
    (∃ r : Vector Int,
      (Vector.mk (-7)).opBinary IntType.int BinOp.divide (Vector.mk 2) = some r ∧
      (Vector.mk (-7)).opAssign IntType.int BinOp.divide (Vector.mk 2)
        = some (OpAssignResult.mk r r)) ∧
    (Vector.mk (-7)).opAssign IntType.int BinOp.divide (Vector.mk 2)
      = some (OpAssignResult.mk (Vector.mk (-3)) (Vector.mk (-3))) :=
  ⟨by decide,
    (opAssign_spec IntType.int BinOp.divide (Vector.mk (-7)) (Vector.mk 2) 0
      (by decide) (by decide) (by decide) (by decide) (by decide)).1,
    by decide⟩

/-- C19: for all vectors `v`, `factor`, `summand` of an integer element type of
width `w`, after `v.fusedMultiplyAdd(factor, summand)` the vector holds
`v_old * factor + summand` converted to the element type: the value of the
type congruent to it modulo `2^w`, which for an unsigned type is the remainder
modulo `2^w`.  `factor` and `summand` are passed by `const` reference and are
not written. -/
theorem fusedMultiplyAdd_spec (t : IntType) (v factor summand : Vector Int) :
    (v.fusedMultiplyAdd t factor summand).m_data
      = t.wrap (v.m_data * factor.m_data + summand.m_data) ∧
    (v.fusedMultiplyAdd t factor summand).m_data
      ≡ v.m_data * factor.m_data + summand.m_data [ZMOD (2 : Int) ^ t.bits] ∧
    (0 < t.bits → t.InRange (v.fusedMultiplyAdd t factor summand).m_data) ∧
    (t.signed = false → (v.fusedMultiplyAdd t factor summand).m_data
      = (v.m_data * factor.m_data + summand.m_data) % (2 : Int) ^ t.bits) := by
  have key : (v.fusedMultiplyAdd t factor summand).m_data
      = t.wrap (v.m_data * factor.m_data + summand.m_data) := by
    unfold Vector.fusedMultiplyAdd Vector.data
    apply wrap_congr
    have h1 := (wrap_modEq t.promote (t.promote.wrap (v.m_data * factor.m_data)
      + summand.m_data)).trans
      ((wrap_modEq t.promote (v.m_data * factor.m_data)).add_right summand.m_data)
    exact h1.of_dvd (promote_dvd t)
  refine ⟨key, ?_, ?_, ?_⟩
  · rw [key]
    exact wrap_modEq t _
  · intro hw
    rw [key]
    exact wrap_inRange t _ hw
  · intro hs
    rw [key]
    simp [IntType.wrap, hs]

end IntegerLanes

section PackInvariants

variable {α : Type}

/-- C22: for every vector `self` and `v2` and every pair of masks `(m1, m2)`,
the boolean returned by `self.pack(m1, v2, m2)` is the value `m1` holds after
the call, and the number of true masks among `m1` and `m2` is the same after
the call as before it; a second `pack` on the objects as the first call left
them writes nothing and returns the same boolean. -/
theorem pack_invariants (self v2 : Vector α) (m1 m2 : Mask) :
    (self.pack m1 v2 m2).ret = (self.pack m1 v2 m2).m1.toBool ∧
    (self.pack m1 v2 m2).m1.data.toNat + (self.pack m1 v2 m2).m2.data.toNat
      = m1.data.toNat + m2.data.toNat ∧
    (self.pack m1 v2 m2).self.pack (self.pack m1 v2 m2).m1 (self.pack m1 v2 m2).v2
        (self.pack m1 v2 m2).m2
      = self.pack m1 v2 m2 := by
  obtain ⟨b1⟩ := m1
  obtain ⟨b2⟩ := m2
  cases b1 <;> cases b2 <;> simp [Vector.pack, Mask.toBool, Mask.ofBool]

end PackInvariants

section ScatterGatherRoundTrip

variable {α : Type}

/-- C23: scatter/gather round trip.  For every vector `v`, array and index
vector whose element 0 is in range, `v.scatter(array, indexes)` with the mask
true or omitted succeeds, and on the array it leaves, gathering with the same
indexes gives a vector equal to `v`: by the constructor `Vector(array,
indexes)`, and by the gather method with the mask true or omitted, whatever
the vector gathered into held before. -/
theorem scatter_gather_roundtrip (v w : Vector α) (array : List α)
    (indexes : Vector Nat) (hi : indexes.m_data < array.length) :
    ∃ array' : List α,
      v.scatter array indexes (Mask.ofBool true) = some array' ∧
      v.scatterDefault array indexes = some array' ∧
      Vector.ctorGather array' indexes = some v ∧
      w.gather array' indexes (Mask.ofBool true) = some v ∧
      w.gatherDefault array' indexes = some v := by
  refine ⟨array.set indexes.m_data v.m_data, ?_, ?_, ?_, ?_, ?_⟩
  · simp [Vector.scatter, Vector.subscript, writeAt, Mask.ofBool, hi]
  · simp [Vector.scatterDefault, Vector.scatter, Vector.subscript, writeAt,
      Mask.ofBool, hi]
  · simp [Vector.ctorGather, Vector.subscript, readAt, hi]
  · simp [Vector.gather, Vector.subscript, readAt, Mask.ofBool, hi]
  · simp [Vector.gatherDefault, Vector.gather, Vector.subscript, readAt, Mask.ofBool, hi]

/-- C23, at `v = 5`, `array = [7, 8]`, index 1, gathering into a vector that
held 9. -/
theorem scatter_gather_roundtrip_witness :
    (Vector.mk 1 : Vector Nat).m_data < [(7 : Int), 8].length ∧
    ∃ array' : List Int,
      (Vector.mk (5 : Int)).scatter [7, 8] (Vector.mk 1) (Mask.ofBool true) = some array' ∧
      Vector.ctorGather array' (Vector.mk 1) = some (Vector.mk 5) ∧
      (Vector.mk (9 : Int)).gather array' (Vector.mk 1) (Mask.ofBool true)
        = some (Vector.mk 5) :=
  ⟨by decide,
    let ⟨array', h1, _, h3, h4, _⟩ :=
      scatter_gather_roundtrip (Vector.mk (5 : Int)) (Vector.mk 9) [7, 8] (Vector.mk 1)
        (by decide)
    ⟨array', h1, h3, h4⟩⟩

end ScatterGatherRoundTrip

section PreprocessorNames

/-- After an `#undef` of each name of a list, the defined names are the
previous ones that are not in the list. -/
theorem mem_processLines_undefs (inc : String → List String → List String)
    (names env : List String) (n : String) :
    n ∈ processLines inc env (names.map Directive.undef) ↔ n ∈ env ∧ n ∉ names := by
  induction names generalizing env with
  | nil => simp [processLines]
  | cons a rest ih =>
    have h := ih (env.filter fun m => decide (m ≠ a))
    simp only [processLines, List.map_cons, List.foldl_cons, Directive.step] at h ⊢
    rw [h]
    simp [List.mem_filter]
    tauto

/-- What `sse/undomacros.h` does to the defined names, on its first inclusion:
it retracts `CONST`, `MAY_ALIAS`, `ALIGN`, `CAT`, `CAT_HELPER`,
`unrolled_loop16`, `for_all_vector_entries` and `STORE_VECTOR`, defines its
include guard, and leaves every other name as it was. -/
theorem sseUndomacros_retracts (inc : String → List String → List String)
    (env : List String) (n : String) (hg : "SSE_UNDOMACROS_H" ∉ env) :
    n ∈ sseUndomacros.process inc env ↔
      (n = "SSE_UNDOMACROS_H" ∨ n ∈ env) ∧ n ∉ sseUndefNames := by
  simp only [Header.process, sseUndomacros, hg, if_false]
  rw [mem_processLines_undefs]
  simp

/-- With its include guard already defined, `sse/undomacros.h` retracts
nothing: the whole header is skipped. -/
theorem sseUndomacros_guarded (inc : String → List String → List String)
    (env : List String) (hg : "SSE_UNDOMACROS_H" ∈ env) :
    sseUndomacros.process inc env = env := by
  simp [Header.process, sseUndomacros, hg]

/-- At a list of defined names holding `MAY_ALIAS` and `KEEP`: after
`sse/undomacros.h`, `MAY_ALIAS` is not defined and `KEEP` still is. -/
theorem sseUndomacros_retracts_witness :
    "SSE_UNDOMACROS_H" ∉ ["MAY_ALIAS", "KEEP"] ∧
    "MAY_ALIAS" ∉ sseUndomacros.process (fun _ e => e) ["MAY_ALIAS", "KEEP"] ∧
    "KEEP" ∈ sseUndomacros.process (fun _ e => e) ["MAY_ALIAS", "KEEP"] :=
  ⟨by decide,
    fun h => ((sseUndomacros_retracts (fun _ e => e) ["MAY_ALIAS", "KEEP"] "MAY_ALIAS"
      (by decide)).1 h).2 (by decide),
    (sseUndomacros_retracts (fun _ e => e) ["MAY_ALIAS", "KEEP"] "KEEP" (by decide)).2
      ⟨Or.inr (by decide), by decide⟩⟩

/-- What `scalar/vector.h` does with its operator-generating names: the names
it defines are the names it undefines, and after the `#undef` lines of
vector.h:227-230 none of them is defined, whatever was defined before and
whatever the files included at the head of the header define. -/
theorem scalarVector_operatorMacros (inc : String → List String → List String)
    (env : List String) (n : String) :
    operatorMacroDefines.Perm operatorMacroUndefs ∧
    (n ∈ operatorMacroDefines →
      n ∉ processLines inc env (scalarVectorIncludes ++ scalarVectorOperatorLines)) := by
  constructor
  · decide
  · intro hn hmem
    rw [processLines, List.foldl_append, scalarVectorOperatorLines, List.foldl_append] at hmem
    have h := (mem_processLines_undefs inc operatorMacroUndefs _ n).1 hmem
    have hu : n ∈ operatorMacroUndefs := by
      simp only [operatorMacroDefines, operatorMacroUndefs, List.mem_cons] at hn ⊢
      tauto
    exact h.2 hu

end PreprocessorNames

end Vc.Scalar
